import Mathlib

/-!
Verification of `src/acquisition/covidcast/signal_dash_data_generator.py`
(delphi-epidata signal dashboard data generator).

The script computes, for each enabled dashboard signal, a freshness status
(latest issue date, latest time value) and a geographic coverage count from
an external metadata table and a one-day time-series query, and upserts the
results into a relational store, advancing per-signal watermark columns.

Shallow embedding conventions:
- `datetime.date` values are `Date` records (year, month, day) compared
  lexicographically, as Python compares dates.
- pandas DataFrames are lists of row records; `df[df.col == v]` is
  `List.filter`, `Series.max` is a left fold of the binary maximum,
  `iloc[0]` is `List.head?` (failing on an empty frame).
- The external covidcast client is a parameter: the time-series endpoint is
  a function from `(source, signal, start_day, end_day)` to a list of rows.
  `metadata.max_time` timestamps are represented by their calendar dates
  (the code only ever uses `.date()` of the maximum, and taking the date is
  monotone, so the maximum commutes with the truncation).
- Python exceptions raised by the computation are `Except Err` values; the
  spec groups them into `NotFoundError` (no metadata rows for the source),
  `InvariantViolation` (coverage grouping yielded zero or more than one
  group) and store errors.  The zero-group failure site (`iloc[0]` on the
  empty grouped frame, an IndexError) is a constructor distinct from the
  more-than-one-group failure site (the explicit ValueError).
- The MySQL tables are total functions from their unique key to an optional
  row payload; `INSERT ... ON DUPLICATE KEY UPDATE` statements are explicit
  upsert functions, and `executemany` is a left fold over the batch.
-/

/-- Calendar date, as Python `datetime.date`: year, month, day. -/
structure Date where
  year : Nat
  month : Nat
  day : Nat
deriving DecidableEq

/-- Strict lexicographic order on dates (Python date comparison). -/
def Date.ltP (a b : Date) : Prop :=
  a.year < b.year ∨
    (a.year = b.year ∧ (a.month < b.month ∨ (a.month = b.month ∧ a.day < b.day)))

instance (a b : Date) : Decidable (Date.ltP a b) := by
  unfold Date.ltP; infer_instance

/-- Boolean strict order on dates (`x.date > latest` comparisons in Python). -/
def Date.ltb (a b : Date) : Bool := decide (Date.ltP a b)

/-- Boolean non-strict order on dates. -/
def Date.leb (a b : Date) : Bool := ! Date.ltb b a

/-- Binary maximum of two dates (MySQL `GREATEST`, keeping the first on ties). -/
def Date.maxD (a b : Date) : Date := if Date.ltb a b then b else a

theorem Date.leb_iff (a b : Date) : Date.leb a b = true ↔ ¬ Date.ltP b a := by
  simp [Date.leb, Date.ltb]

theorem Date.leb_refl (a : Date) : Date.leb a a = true := by
  rw [Date.leb_iff]; unfold Date.ltP; omega

theorem Date.leb_trans {a b c : Date} (h1 : Date.leb a b = true)
    (h2 : Date.leb b c = true) : Date.leb a c = true := by
  rw [Date.leb_iff] at h1 h2 ⊢; unfold Date.ltP at h1 h2 ⊢; omega

theorem Date.leb_maxD_left (a b : Date) : Date.leb a (Date.maxD a b) = true := by
  unfold Date.maxD Date.ltb
  by_cases h : Date.ltP a b
  · rw [if_pos (decide_eq_true h)]
    rw [Date.leb_iff]; unfold Date.ltP at h ⊢; omega
  · rw [if_neg (by simpa using h)]
    exact Date.leb_refl a

theorem Date.leb_maxD_right (a b : Date) : Date.leb b (Date.maxD a b) = true := by
  unfold Date.maxD Date.ltb
  by_cases h : Date.ltP a b
  · rw [if_pos (decide_eq_true h)]
    exact Date.leb_refl b
  · rw [if_neg (by simpa using h)]
    rw [Date.leb_iff]; unfold Date.ltP at h ⊢; omega

theorem Date.maxD_choice (a b : Date) : Date.maxD a b = a ∨ Date.maxD a b = b := by
  unfold Date.maxD; split
  · exact Or.inr rfl
  · exact Or.inl rfl

/-- `Series.max` over a list of dates, seeded with a first element. -/
def foldMax (d : Date) (l : List Date) : Date := l.foldl Date.maxD d

theorem leb_foldMax_init (d : Date) (l : List Date) :
    Date.leb d (foldMax d l) = true := by
  induction l generalizing d with
  | nil => exact Date.leb_refl d
  | cons a t ih =>
    exact Date.leb_trans (Date.leb_maxD_left d a) (ih (Date.maxD d a))

theorem foldMax_ub {x : Date} {l : List Date} (d : Date) (hx : x ∈ l) :
    Date.leb x (foldMax d l) = true := by
  induction l generalizing d with
  | nil => cases hx
  | cons a t ih =>
    rcases List.mem_cons.mp hx with h | h
    · subst h
      exact Date.leb_trans (Date.leb_maxD_right d x) (leb_foldMax_init (Date.maxD d x) t)
    · exact ih (Date.maxD d a) h

theorem foldMax_mem (d : Date) (l : List Date) :
    foldMax d l = d ∨ foldMax d l ∈ l := by
  induction l generalizing d with
  | nil => exact Or.inl rfl
  | cons a t ih =>
    rcases ih (Date.maxD d a) with h | h
    · rcases Date.maxD_choice d a with h2 | h2
      · exact Or.inl (by rw [show foldMax d (a :: t) = foldMax (Date.maxD d a) t from rfl, h, h2])
      · exact Or.inr (by
          rw [show foldMax d (a :: t) = foldMax (Date.maxD d a) t from rfl, h, h2]
          exact List.mem_cons_self a t)
    · exact Or.inr (List.mem_cons_of_mem a h)

/-- `Series.max` over a list of natural numbers (the `max_issue` column). -/
def foldNatMax (n : Nat) (l : List Nat) : Nat := l.foldl Nat.max n

theorem le_foldNatMax_init (n : Nat) (l : List Nat) : n ≤ foldNatMax n l := by
  induction l generalizing n with
  | nil => exact Nat.le_refl n
  | cons a t ih =>
    exact Nat.le_trans (Nat.le_max_left n a) (ih (Nat.max n a))

theorem foldNatMax_ub {x : Nat} {l : List Nat} (n : Nat) (hx : x ∈ l) :
    x ≤ foldNatMax n l := by
  induction l generalizing n with
  | nil => cases hx
  | cons a t ih =>
    rcases List.mem_cons.mp hx with h | h
    · subst h
      exact Nat.le_trans (Nat.le_max_right n x) (le_foldNatMax_init (Nat.max n x) t)
    · exact ih (Nat.max n a) h

theorem foldNatMax_mem (n : Nat) (l : List Nat) :
    foldNatMax n l = n ∨ foldNatMax n l ∈ l := by
  induction l generalizing n with
  | nil => exact Or.inl rfl
  | cons a t ih =>
    rcases ih (Nat.max n a) with h | h
    · have hch : Nat.max n a = n ∨ Nat.max n a = a := by
        rcases Nat.le_total n a with h2 | h2
        · exact Or.inr (Nat.max_eq_right h2)
        · exact Or.inl (Nat.max_eq_left h2)
      rcases hch with h2 | h2
      · exact Or.inl (by rw [show foldNatMax n (a :: t) = foldNatMax (Nat.max n a) t from rfl, h, h2])
      · exact Or.inr (by
          rw [show foldNatMax n (a :: t) = foldNatMax (Nat.max n a) t from rfl, h, h2]
          exact List.mem_cons_self a t)
    · exact Or.inr (List.mem_cons_of_mem a h)

/-- One row of the covidcast metadata table (`covidcast.metadata()`): the
columns the script reads.  `max_time` is the calendar date of the column's
timestamp (see the header comment). -/
structure MetaRow where
  data_source : String
  signal : String
  max_issue : Nat
  max_time : Date
deriving DecidableEq

/-- One row returned by the time-series endpoint (`covidcast.signal`):
the four columns the script groups by. -/
structure TSRow where
  geo_type : String
  data_source : String
  time_value : Date
  signal : String
deriving DecidableEq

/-- `DashboardSignal` dataclass (source lines 20-28). -/
structure DashboardSignal where
  db_id : Nat
  name : String
  source : String
  latest_coverage_update : Date
  latest_status_update : Date
deriving DecidableEq

/-- `DashboardSignalCoverage` dataclass (source lines 31-38). -/
structure DashboardSignalCoverage where
  signal_id : Nat
  date : Date
  geo_type : String
  count : Nat
deriving DecidableEq

/-- `DashboardSignalStatus` dataclass (source lines 41-48). -/
structure DashboardSignalStatus where
  signal_id : Nat
  date : Date
  latest_issue : Date
  latest_time_value : Date
deriving DecidableEq

/-- Failure modes of the computation phase.  `notFound` is the failure of a
column maximum over an empty filtered frame (the spec's `NotFoundError`);
`parseFailure` is `pd.to_datetime` rejecting a value that is not a valid
`YYYYMMDD` date; `noDataForDate` is `iloc[0]` on an empty frame (an
IndexError, reached when the one-day query returns zero rows);
`multipleGroups n` is the explicit ValueError raised at source line 196
when the grouping produced `n > 1` rows. -/
inductive Err where
  | notFound
  | parseFailure
  | noDataForDate
  | multipleGroups (n : Nat)
deriving DecidableEq

/-- Number of days in a month, with the Gregorian leap rule (what
`pd.to_datetime(..., format="%Y%m%d")` accepts as a valid day). -/
def daysInMonth (y m : Nat) : Nat :=
  if m = 2 then
    (if (y % 4 = 0 ∧ y % 100 ≠ 0) ∨ y % 400 = 0 then 29 else 28)
  else if m = 4 ∨ m = 6 ∨ m = 9 ∨ m = 11 then 30
  else 31

/-- Decode an integer in `YYYYMMDD` form to a calendar date, validating it
as `pd.to_datetime(str(n), format="%Y%m%d")` does. -/
def decodeYyyymmdd (n : Nat) : Option Date :=
  let y := n / 10000
  let m := (n / 100) % 100
  let d := n % 100
  if 1 ≤ m ∧ m ≤ 12 ∧ 1 ≤ d ∧ d ≤ daysInMonth y m then some ⟨y, m, d⟩ else none

/-- `get_latest_issue_from_metadata` (source lines 164-168): filter the
metadata to the signal's source, take the maximum `max_issue` and decode it
as `YYYYMMDD`.  On an empty filtered frame the maximum is NaN and the
decode step raises; that failure is the spec's `NotFoundError`. -/
def get_latest_issue_from_metadata (sig : DashboardSignal) (metadata : List MetaRow) :
    Except Err Date :=
  match (metadata.filter fun r => decide (r.data_source = sig.source)).map
      (fun r => r.max_issue) with
  | [] => Except.error Err.notFound
  | n :: ns =>
    match decodeYyyymmdd (foldNatMax n ns) with
    | none => Except.error Err.parseFailure
    | some d => Except.ok d

/-- `get_latest_time_value_from_metadata` (source lines 171-174): filter the
metadata to the signal's source and take the maximum `max_time` date.  On an
empty filtered frame the maximum is NaN and `.date()` raises; that failure
is the spec's `NotFoundError`. -/
def get_latest_time_value_from_metadata (sig : DashboardSignal) (metadata : List MetaRow) :
    Except Err Date :=
  match (metadata.filter fun r => decide (r.data_source = sig.source)).map
      (fun r => r.max_time) with
  | [] => Except.error Err.notFound
  | d :: ds => Except.ok (foldMax d ds)

/-- The grouping key of `latest_data.groupby(['geo_type', 'data_source',
'time_value', 'signal'])` (source lines 192-193). -/
def gkey (r : TSRow) : String × String × Date × String :=
  (r.geo_type, r.data_source, r.time_value, r.signal)

/-- The distinct grouping keys of a frame, in first-appearance order.
(pandas sorts groups by key; the order is observable only through
`iloc[0]` in the single-group case, where the two orders coincide.) -/
def groupKeys (rows : List TSRow) : List (String × String × Date × String) :=
  rows.foldl (fun acc r => if gkey r ∈ acc then acc else acc ++ [gkey r]) []

/-- `groupby([...]).size()`: one `(key, row count)` entry per group. -/
def groupCounts (rows : List TSRow) :
    List ((String × String × Date × String) × Nat) :=
  (groupKeys rows).map fun k => (k, (rows.filter fun r => decide (gkey r = k)).length)

/-- `get_coverage` (source lines 177-207).  `q` is the external
`covidcast.signal` endpoint.  The signal queried is `iloc[0]` of the
filtered metadata's `signal` column; the one-day query runs with
`start_day = end_day = latest_time_value`; the grouped frame must have at
most one row (line 195) and `iloc[0]` of it raises on zero rows. -/
def get_coverage (q : String → String → Date → Date → List TSRow)
    (sig : DashboardSignal) (metadata : List MetaRow) :
    Except Err (List DashboardSignalCoverage) :=
  match get_latest_time_value_from_metadata sig metadata with
  | Except.error e => Except.error e
  | Except.ok latest_time_value =>
    match (metadata.filter fun r => decide (r.data_source = sig.source)).head? with
    | none => Except.error Err.noDataForDate
    | some row0 =>
      let latest_data := q sig.source row0.signal latest_time_value latest_time_value
      let count_by_geo_type := groupCounts latest_data
      if 1 < count_by_geo_type.length then
        Except.error (Err.multipleGroups count_by_geo_type.length)
      else
        match count_by_geo_type.head? with
        | none => Except.error Err.noDataForDate
        | some g =>
          Except.ok [⟨sig.db_id, latest_time_value, g.1.1, g.2⟩]

/-- A row of the `dashboard_signal` registry table: the `DashboardSignal`
columns plus the `enabled` flag used by the `WHERE` clause of
`get_enabled_signals`. -/
structure SignalRow where
  db_id : Nat
  name : String
  source : String
  enabled : Bool
  latest_coverage_update : Date
  latest_status_update : Date
deriving DecidableEq

/-- The relational store: the registry table (a list of rows, `id` being
the primary key), the status table keyed by `(signal_id, date)` with
payload `(latest_issue, latest_time_value)`, and the coverage table keyed
by `(signal_id, date, geo_type)` with payload `count`. -/
structure DbState where
  signals : List SignalRow
  statusTable : Nat × Date → Option (Date × Date)
  coverageTable : Nat × Date × String → Option Nat

/-- One status upsert (source lines 76-87): `INSERT ... ON DUPLICATE KEY
UPDATE` overwriting `latest_issue` and `latest_time_value` at the key
`(signal_id, date)`. -/
def upsertStatus (t : Nat × Date → Option (Date × Date))
    (x : DashboardSignalStatus) : Nat × Date → Option (Date × Date) :=
  fun k =>
    if k = (x.signal_id, x.date) then some (x.latest_issue, x.latest_time_value)
    else t k

/-- One coverage insert (source lines 107-116): `INSERT ... ON DUPLICATE
KEY UPDATE signal_id = signal_id`, a no-op when the key already has a row. -/
def insertCoverage (t : Nat × Date × String → Option Nat)
    (x : DashboardSignalCoverage) : Nat × Date × String → Option Nat :=
  match t (x.signal_id, x.date, x.geo_type) with
  | some _ => t
  | none => fun k => if k = (x.signal_id, x.date, x.geo_type) then some x.count else t k

/-- `dict.get` on the per-batch latest-date dictionary (an association list
in insertion order, as Python dicts iterate). -/
def lookupA (acc : List (Nat × Date)) (k : Nat) : Option Date :=
  match acc with
  | [] => none
  | (k0, d0) :: t => if k = k0 then some d0 else lookupA t k

/-- Replace the value stored at an existing key, keeping its position
(Python `dict.update` on a present key). -/
def setA (acc : List (Nat × Date)) (k : Nat) (d : Date) : List (Nat × Date) :=
  match acc with
  | [] => []
  | (k0, d0) :: t => if k = k0 then (k0, d) :: t else (k0, d0) :: setA t k d

/-- One step of the loop at source lines 90-93 / 119-122: record `d` for
`k` when the key is new or `d` is strictly greater than the stored date. -/
def dictUpd (acc : List (Nat × Date)) (k : Nat) (d : Date) : List (Nat × Date) :=
  match lookupA acc k with
  | none => acc ++ [(k, d)]
  | some d0 => if Date.ltb d0 d then setA acc k d else acc

/-- The per-batch latest-date dictionary (source lines 89-94 and 118-123;
the identical loop appears in both `write_status` and `write_coverage`). -/
def latestDates (pairs : List (Nat × Date)) : List (Nat × Date) :=
  pairs.foldl (fun acc p => dictUpd acc p.1 p.2) []

/-- One watermark `UPDATE` (source lines 96-99): set `latest_status_update`
to `GREATEST(latest_status_update, d)` on every registry row whose `id`
matches. -/
def applyStatusTup (r : SignalRow) (p : Nat × Date) : SignalRow :=
  if r.db_id = p.1 then
    { r with latest_status_update := Date.maxD r.latest_status_update p.2 }
  else r

/-- One watermark `UPDATE` (source lines 125-128): the coverage analogue. -/
def applyCoverageTup (r : SignalRow) (p : Nat × Date) : SignalRow :=
  if r.db_id = p.1 then
    { r with latest_coverage_update := Date.maxD r.latest_coverage_update p.2 }
  else r

/-- `Database.write_status` (source lines 74-102): upsert every status row
in batch order, then apply the per-batch greatest-of watermark updates,
as one committed unit. -/
def write_status (status_list : List DashboardSignalStatus) (st : DbState) : DbState :=
  let t := status_list.foldl upsertStatus st.statusTable
  let tups := latestDates (status_list.map fun x => (x.signal_id, x.date))
  let sigs := tups.foldl (fun sgs p => sgs.map fun r => applyStatusTup r p) st.signals
  { st with statusTable := t, signals := sigs }

/-- `Database.write_coverage` (source lines 104-131): insert every coverage
row in batch order (no-op on duplicate keys), then apply the per-batch
greatest-of watermark updates, as one committed unit. -/
def write_coverage (coverage_list : List DashboardSignalCoverage) (st : DbState) : DbState :=
  let t := coverage_list.foldl insertCoverage st.coverageTable
  let tups := latestDates (coverage_list.map fun x => (x.signal_id, x.date))
  let sigs := tups.foldl (fun sgs p => sgs.map fun r => applyCoverageTup r p) st.signals
  { st with coverageTable := t, signals := sigs }

/-- `Database.get_enabled_signals` (source lines 134-154). -/
def get_enabled_signals (st : DbState) : List DashboardSignal :=
  (st.signals.filter fun r => r.enabled).map fun r =>
    ⟨r.db_id, r.name, r.source, r.latest_coverage_update, r.latest_status_update⟩

/-- The body of the per-signal loop of `main` (source lines 235-249):
latest issue, latest time value and coverage for one signal; any failure
propagates (nothing is caught per signal). -/
def computeSignal (q : String → String → Date → Date → List TSRow)
    (metadata : List MetaRow) (today : Date) (sig : DashboardSignal) :
    Except Err (DashboardSignalStatus × List DashboardSignalCoverage) :=
  match get_latest_issue_from_metadata sig metadata with
  | Except.error e => Except.error e
  | Except.ok latest_issue =>
    match get_latest_time_value_from_metadata sig metadata with
    | Except.error e => Except.error e
    | Except.ok latest_time_value =>
      match get_coverage q sig metadata with
      | Except.error e => Except.error e
      | Except.ok latest_coverage =>
        Except.ok (⟨sig.db_id, today, latest_issue, latest_time_value⟩, latest_coverage)

/-- The accumulation loop of `main` (source lines 232-249): statuses are
appended and coverages extended in signal iteration order; the first
computation error aborts the loop. -/
def computeBatches (q : String → String → Date → Date → List TSRow)
    (metadata : List MetaRow) (today : Date) :
    List DashboardSignal →
    Except Err (List DashboardSignalStatus × List DashboardSignalCoverage)
  | [] => Except.ok ([], [])
  | sig :: rest =>
    match computeSignal q metadata today sig with
    | Except.error e => Except.error e
    | Except.ok (s, c) =>
      match computeBatches q metadata today rest with
      | Except.error e => Except.error e
      | Except.ok (sl, cl) => Except.ok (s :: sl, c ++ cl)

/-- The write phase of `main` (source lines 251-261): each batch write is
wrapped in its own try/except on store errors, so a failing write is
skipped (its transaction commits nothing) and the run continues.
`statusFails` and `coverageFails` say whether the store raises a
`mysql.connector.Error` during the respective write. -/
def runWrites (statusFails coverageFails : Bool)
    (signal_status_list : List DashboardSignalStatus)
    (coverage_list : List DashboardSignalCoverage) (st : DbState) : DbState :=
  let st1 := if statusFails then st else write_status signal_status_list st
  if coverageFails then st1 else write_coverage coverage_list st1

/-- The Python `main` function (source lines 210-266; named `runMain` here
because Lean reserves `main`): load enabled signals, compute both batches
(uncaught computation errors abort the run before any write), run the two
independent write phases, and return `True` unconditionally. -/
def runMain (q : String → String → Date → Date → List TSRow)
    (metadata : List MetaRow) (today : Date)
    (statusFails coverageFails : Bool) (st : DbState) :
    Except Err (DbState × Bool) :=
  match computeBatches q metadata today (get_enabled_signals st) with
  | Except.error e => Except.error e
  | Except.ok (signal_status_list, coverage_list) =>
    Except.ok (runWrites statusFails coverageFails signal_status_list coverage_list st, true)

/-- The `__main__` guard (source lines 269-271): exit code 1 when `main`
returns a falsy value, 0 otherwise; an uncaught exception also terminates
the interpreter with a nonzero code. -/
def exitCode (res : Except Err (DbState × Bool)) : Nat :=
  match res with
  | Except.error _ => 1
  | Except.ok (_, ok) => if ok then 0 else 1

/-- The `(signal_id, date)` key of a status row. -/
def statusKey (x : DashboardSignalStatus) : Nat × Date := (x.signal_id, x.date)

/-- The payload the last batch entry with a given key would upsert: the
specification-side description of "the latest written values win". -/
def lastVal (l : List DashboardSignalStatus) (k : Nat × Date) : Option (Date × Date) :=
  (l.reverse.find? fun x => decide (statusKey x = k)).map
    fun x => (x.latest_issue, x.latest_time_value)

theorem filter_nil_of_none {α : Type} (p : α → Bool) (l : List α)
    (h : ∀ a ∈ l, p a = false) : l.filter p = [] := by
  induction l with
  | nil => rfl
  | cons a t ih =>
    have ha := h a (List.mem_cons_self a t)
    rw [List.filter_cons, if_neg (by simp [ha])]
    exact ih fun x hx => h x (List.mem_cons_of_mem a hx)

theorem filter_all_eq {α : Type} (p : α → Bool) (l : List α)
    (h : ∀ a ∈ l, p a = true) : l.filter p = l := by
  induction l with
  | nil => rfl
  | cons a t ih =>
    rw [List.filter_cons, if_pos (by simp [h a (List.mem_cons_self a t)])]
    rw [ih fun x hx => h x (List.mem_cons_of_mem a hx)]

theorem two_le_length_of_two_mem {α : Type} {a b : α} {l : List α}
    (ha : a ∈ l) (hb : b ∈ l) (hne : a ≠ b) : 2 ≤ l.length := by
  cases l with
  | nil => cases ha
  | cons x t =>
    cases t with
    | nil =>
      have ha2 : a = x := by simpa using ha
      have hb2 : b = x := by simpa using hb
      exact absurd (ha2.trans hb2.symm) hne
    | cons y t2 => simp only [List.length_cons]; omega

/-- Claim C4: for every metadata table with at least one row for the
signal's source, `get_latest_issue_from_metadata` returns the calendar
date obtained by decoding, as `YYYYMMDD`, the maximum `max_issue` integer
among that source's rows. -/
theorem latest_issue_decodes_max (sig : DashboardSignal) (metadata : List MetaRow)
    (n : Nat) (d : Date)
    (hmem : n ∈ (metadata.filter fun r => decide (r.data_source = sig.source)).map
      (fun r => r.max_issue))
    (hub : ∀ m ∈ (metadata.filter fun r => decide (r.data_source = sig.source)).map
      (fun r => r.max_issue), m ≤ n)
    (hdec : decodeYyyymmdd n = some d) :
    get_latest_issue_from_metadata sig metadata = Except.ok d := by
  unfold get_latest_issue_from_metadata
  cases hvals : (metadata.filter fun r => decide (r.data_source = sig.source)).map
      (fun r => r.max_issue) with
  | nil => rw [hvals] at hmem; cases hmem
  | cons v vs =>
    rw [hvals] at hmem hub
    have hfold : foldNatMax v vs = n := by
      apply Nat.le_antisymm
      · rcases foldNatMax_mem v vs with h | h
        · rw [h]; exact hub v (List.mem_cons_self v vs)
        · exact hub _ (List.mem_cons_of_mem v h)
      · rcases List.mem_cons.mp hmem with h | h
        · rw [h]; exact le_foldNatMax_init v vs
        · exact foldNatMax_ub v h
    simp only [hvals, hfold, hdec]

/-- Witness for C4 at a concrete metadata table with two rows for the
source, whose maximum `max_issue` is 20230105. -/
theorem latest_issue_decodes_max_witness :
    get_latest_issue_from_metadata ⟨1, "sig", "src", ⟨2020, 1, 1⟩, ⟨2020, 1, 1⟩⟩
      [⟨"src", "sig", 20230103, ⟨2023, 1, 2⟩⟩, ⟨"src", "sig2", 20230105, ⟨2023, 1, 4⟩⟩,
        ⟨"other", "x", 20240101, ⟨2024, 1, 1⟩⟩] = Except.ok ⟨2023, 1, 5⟩ :=
  latest_issue_decodes_max _ _ 20230105 _ (by decide) (by decide) (by decide)

/-- Claim C5: for every metadata table with no row for the signal's source,
both `get_latest_issue_from_metadata` and
`get_latest_time_value_from_metadata` fail with the `NotFoundError`
condition (the column maximum over the empty filtered frame). -/
theorem latest_metadata_not_found (sig : DashboardSignal) (metadata : List MetaRow)
    (h : ∀ r ∈ metadata, r.data_source ≠ sig.source) :
    get_latest_issue_from_metadata sig metadata = Except.error Err.notFound ∧
    get_latest_time_value_from_metadata sig metadata = Except.error Err.notFound := by
  have hf : metadata.filter (fun r => decide (r.data_source = sig.source)) = [] :=
    filter_nil_of_none _ _ fun r hr => by simpa using h r hr
  constructor
  · unfold get_latest_issue_from_metadata
    simp only [hf, List.map_nil]
  · unfold get_latest_time_value_from_metadata
    simp only [hf, List.map_nil]

/-- Witness for C5 at a concrete metadata table whose only rows belong to
other sources. -/
theorem latest_metadata_not_found_witness :
    get_latest_issue_from_metadata ⟨1, "sig", "src", ⟨2020, 1, 1⟩, ⟨2020, 1, 1⟩⟩
      [⟨"other", "sig", 20230105, ⟨2023, 1, 4⟩⟩] = Except.error Err.notFound ∧
    get_latest_time_value_from_metadata ⟨1, "sig", "src", ⟨2020, 1, 1⟩, ⟨2020, 1, 1⟩⟩
      [⟨"other", "sig", 20230105, ⟨2023, 1, 4⟩⟩] = Except.error Err.notFound :=
  latest_metadata_not_found _ _ (by decide)

/-- Claim C10: the per-signal computations read only the signal's `db_id`
and `source` fields; two signals agreeing on those (but possibly differing
in `name` or the watermark fields) get identical latest-issue,
latest-time-value and coverage results. -/
theorem signal_computations_use_only_id_and_source
    (q : String → String → Date → Date → List TSRow)
    (s1 s2 : DashboardSignal) (metadata : List MetaRow)
    (hid : s1.db_id = s2.db_id) (hsrc : s1.source = s2.source) :
    get_latest_issue_from_metadata s1 metadata
        = get_latest_issue_from_metadata s2 metadata ∧
    get_latest_time_value_from_metadata s1 metadata
        = get_latest_time_value_from_metadata s2 metadata ∧
    get_coverage q s1 metadata = get_coverage q s2 metadata := by
  refine ⟨?_, ?_, ?_⟩
  · unfold get_latest_issue_from_metadata; rw [hsrc]
  · unfold get_latest_time_value_from_metadata; rw [hsrc]
  · unfold get_coverage get_latest_time_value_from_metadata; rw [hsrc, hid]

/-- Witness for C10: two concrete signals sharing `db_id` and `source` but
differing in `name` and both watermark dates. -/
theorem signal_computations_use_only_id_and_source_witness :
    get_latest_issue_from_metadata ⟨1, "a", "src", ⟨2020, 1, 1⟩, ⟨2020, 1, 1⟩⟩
        [⟨"src", "sig", 20230105, ⟨2023, 1, 4⟩⟩]
      = get_latest_issue_from_metadata ⟨1, "b", "src", ⟨2021, 2, 2⟩, ⟨2021, 3, 3⟩⟩
        [⟨"src", "sig", 20230105, ⟨2023, 1, 4⟩⟩] ∧
    get_latest_time_value_from_metadata ⟨1, "a", "src", ⟨2020, 1, 1⟩, ⟨2020, 1, 1⟩⟩
        [⟨"src", "sig", 20230105, ⟨2023, 1, 4⟩⟩]
      = get_latest_time_value_from_metadata ⟨1, "b", "src", ⟨2021, 2, 2⟩, ⟨2021, 3, 3⟩⟩
        [⟨"src", "sig", 20230105, ⟨2023, 1, 4⟩⟩] ∧
    get_coverage (fun _ _ _ _ => [⟨"county", "src", ⟨2023, 1, 4⟩, "sig"⟩])
        ⟨1, "a", "src", ⟨2020, 1, 1⟩, ⟨2020, 1, 1⟩⟩
        [⟨"src", "sig", 20230105, ⟨2023, 1, 4⟩⟩]
      = get_coverage (fun _ _ _ _ => [⟨"county", "src", ⟨2023, 1, 4⟩, "sig"⟩])
        ⟨1, "b", "src", ⟨2021, 2, 2⟩, ⟨2021, 3, 3⟩⟩
        [⟨"src", "sig", 20230105, ⟨2023, 1, 4⟩⟩] :=
  signal_computations_use_only_id_and_source _ _ _ _ rfl rfl

theorem mem_foldl_groupstep {k : String × String × Date × String}
    (rows : List TSRow) (acc : List (String × String × Date × String))
    (hk : k ∈ acc) :
    k ∈ rows.foldl (fun a r => if gkey r ∈ a then a else a ++ [gkey r]) acc := by
  induction rows generalizing acc with
  | nil => exact hk
  | cons r t ih =>
    apply ih
    show k ∈ if gkey r ∈ acc then acc else acc ++ [gkey r]
    by_cases h : gkey r ∈ acc
    · rw [if_pos h]; exact hk
    · rw [if_neg h]; exact List.mem_append_left _ hk

theorem gkey_mem_groupKeys {r : TSRow} {rows : List TSRow} (hr : r ∈ rows) :
    gkey r ∈ groupKeys rows := by
  have aux : ∀ (rows2 : List TSRow) (acc : List (String × String × Date × String)),
      r ∈ rows2 →
      gkey r ∈ rows2.foldl (fun a x => if gkey x ∈ a then a else a ++ [gkey x]) acc := by
    intro rows2
    induction rows2 with
    | nil => intro acc h; cases h
    | cons a t ih =>
      intro acc h
      rcases List.mem_cons.mp h with h | h
      · subst h
        rw [List.foldl_cons]
        apply mem_foldl_groupstep
        show gkey r ∈ if gkey r ∈ acc then acc else acc ++ [gkey r]
        by_cases hmem : gkey r ∈ acc
        · rw [if_pos hmem]; exact hmem
        · rw [if_neg hmem]; exact List.mem_append_right _ (List.mem_cons_self _ _)
      · exact ih _ h
  exact aux rows [] hr

theorem foldl_groupstep_fixed (rows : List TSRow)
    (acc : List (String × String × Date × String))
    (h : ∀ r ∈ rows, gkey r ∈ acc) :
    rows.foldl (fun a x => if gkey x ∈ a then a else a ++ [gkey x]) acc = acc := by
  induction rows with
  | nil => rfl
  | cons a t ih =>
    rw [List.foldl_cons, if_pos (h a (List.mem_cons_self a t))]
    exact ih fun r hr => h r (List.mem_cons_of_mem a hr)

theorem groupKeys_const {r0 : TSRow} {t : List TSRow} {rows : List TSRow}
    (hrows : rows = r0 :: t) (hsame : ∀ r ∈ rows, gkey r = gkey r0) :
    groupKeys rows = [gkey r0] := by
  subst hrows
  unfold groupKeys
  rw [List.foldl_cons]
  have h0 : (if gkey r0 ∈ ([] : List (String × String × Date × String)) then []
      else [] ++ [gkey r0]) = [gkey r0] := by simp
  rw [h0]
  apply foldl_groupstep_fixed
  intro r hr
  rw [hsame r (List.mem_cons_of_mem r0 hr)]
  exact List.mem_cons_self _ _

theorem groupCounts_const {r0 : TSRow} {t : List TSRow} {rows : List TSRow}
    (hrows : rows = r0 :: t) (hsame : ∀ r ∈ rows, gkey r = gkey r0) :
    groupCounts rows = [(gkey r0, rows.length)] := by
  unfold groupCounts
  rw [groupKeys_const hrows hsame]
  have hflt : rows.filter (fun r => decide (gkey r = gkey r0)) = rows :=
    filter_all_eq _ _ fun a ha => decide_eq_true (hsame a ha)
  simp [hflt]

/-- Claim C1 counterexample: a time-series result whose rows are non-empty
and all share one geo_type, yet `get_coverage` does not return a
single-element list — the grouping is by `(geo_type, data_source,
time_value, signal)`, so rows differing in the `signal` column alone
produce two groups and the ValueError at source line 196. -/
theorem coverage_one_geo_type_not_sufficient :
    (∀ r ∈ ([⟨"county", "src", ⟨2023, 1, 4⟩, "a"⟩,
        ⟨"county", "src", ⟨2023, 1, 4⟩, "b"⟩] : List TSRow), r.geo_type = "county") ∧
    get_coverage
        (fun _ _ _ _ => [⟨"county", "src", ⟨2023, 1, 4⟩, "a"⟩,
          ⟨"county", "src", ⟨2023, 1, 4⟩, "b"⟩])
        ⟨1, "sig", "src", ⟨2020, 1, 1⟩, ⟨2020, 1, 1⟩⟩
        [⟨"src", "a", 20230104, ⟨2023, 1, 4⟩⟩]
      = Except.error (Err.multipleGroups 2) ∧
    ∀ l, get_coverage
        (fun _ _ _ _ => [⟨"county", "src", ⟨2023, 1, 4⟩, "a"⟩,
          ⟨"county", "src", ⟨2023, 1, 4⟩, "b"⟩])
        ⟨1, "sig", "src", ⟨2020, 1, 1⟩, ⟨2020, 1, 1⟩⟩
        [⟨"src", "a", 20230104, ⟨2023, 1, 4⟩⟩]
      ≠ Except.ok l := by
  refine ⟨by decide, rfl, fun l h => ?_⟩
  have h2 : (Except.error (Err.multipleGroups 2)
      : Except Err (List DashboardSignalCoverage)) = Except.ok l := h
  exact Except.noConfusion h2

/-- Claim C1 (amended): when the one-day query for the source's first
metadata signal returns a non-empty list of rows that all share one
`(geo_type, data_source, time_value, signal)` grouping key, `get_coverage`
returns exactly `[⟨sig.db_id, latest_time_value, geo_type, row count⟩]`;
the signal queried is the first signal name in the metadata rows for the
source. -/
theorem coverage_single_group_result
    (q : String → String → Date → Date → List TSRow)
    (sig : DashboardSignal) (metadata : List MetaRow)
    (ltv : Date) (mrow : MetaRow) (r0 : TSRow)
    (hltv : get_latest_time_value_from_metadata sig metadata = Except.ok ltv)
    (hhead : (metadata.filter fun r => decide (r.data_source = sig.source)).head?
      = some mrow)
    (hr0 : (q sig.source mrow.signal ltv ltv).head? = some r0)
    (hsame : ∀ r ∈ q sig.source mrow.signal ltv ltv, gkey r = gkey r0) :
    get_coverage q sig metadata =
      Except.ok [⟨sig.db_id, ltv, r0.geo_type,
        (q sig.source mrow.signal ltv ltv).length⟩] := by
  obtain ⟨t, ht⟩ : ∃ t, q sig.source mrow.signal ltv ltv = r0 :: t := by
    cases hq : q sig.source mrow.signal ltv ltv with
    | nil => rw [hq] at hr0; cases hr0
    | cons a t =>
      rw [hq] at hr0
      have ha : a = r0 := by simpa using hr0
      exact ⟨t, by rw [ha]⟩
  have hgc : groupCounts (q sig.source mrow.signal ltv ltv)
      = [(gkey r0, (q sig.source mrow.signal ltv ltv).length)] :=
    groupCounts_const ht hsame
  simp only [get_coverage, hltv, hhead, hgc]
  simp [gkey]

/-- Witness for C1 (amended) at a concrete query returning three rows that
share one grouping key. -/
theorem coverage_single_group_result_witness :
    get_coverage
        (fun _ _ _ _ => [⟨"county", "src", ⟨2023, 1, 4⟩, "sig"⟩,
          ⟨"county", "src", ⟨2023, 1, 4⟩, "sig"⟩,
          ⟨"county", "src", ⟨2023, 1, 4⟩, "sig"⟩])
        ⟨1, "sig", "src", ⟨2020, 1, 1⟩, ⟨2020, 1, 1⟩⟩
        [⟨"src", "sig", 20230105, ⟨2023, 1, 4⟩⟩]
      = Except.ok [⟨1, ⟨2023, 1, 4⟩, "county", 3⟩] :=
  coverage_single_group_result _ _ _ ⟨2023, 1, 4⟩ ⟨"src", "sig", 20230105, ⟨2023, 1, 4⟩⟩
    ⟨"county", "src", ⟨2023, 1, 4⟩, "sig"⟩ rfl rfl rfl (by decide)

/-- Claim C2: when the one-day query returns zero rows, `get_coverage`
fails with the distinct no-data condition (the `iloc[0]` IndexError on the
empty grouped frame); when its rows span two or more geo_types it fails
with the more-than-one-group ValueError; the two failure conditions are
distinct.  Both are the spec's `InvariantViolation` category (grouping
produced zero or more than one group). -/
theorem coverage_failure_modes
    (q : String → String → Date → Date → List TSRow)
    (sig : DashboardSignal) (metadata : List MetaRow)
    (ltv : Date) (mrow : MetaRow)
    (hltv : get_latest_time_value_from_metadata sig metadata = Except.ok ltv)
    (hhead : (metadata.filter fun r => decide (r.data_source = sig.source)).head?
      = some mrow) :
    (q sig.source mrow.signal ltv ltv = [] →
      get_coverage q sig metadata = Except.error Err.noDataForDate) ∧
    (∀ r1 ∈ q sig.source mrow.signal ltv ltv, ∀ r2 ∈ q sig.source mrow.signal ltv ltv,
      r1.geo_type ≠ r2.geo_type →
      ∃ n, 2 ≤ n ∧ get_coverage q sig metadata = Except.error (Err.multipleGroups n)) ∧
    (∀ n, Err.noDataForDate ≠ Err.multipleGroups n) := by
  refine ⟨?_, ?_, fun n h => Err.noConfusion h⟩
  · intro hq
    simp [get_coverage, hltv, hhead, hq, groupCounts, groupKeys]
  · intro r1 h1 r2 h2 hne
    have hk1 : gkey r1 ∈ groupKeys (q sig.source mrow.signal ltv ltv) :=
      gkey_mem_groupKeys h1
    have hk2 : gkey r2 ∈ groupKeys (q sig.source mrow.signal ltv ltv) :=
      gkey_mem_groupKeys h2
    have hkne : gkey r1 ≠ gkey r2 := fun h => hne (congrArg Prod.fst h)
    have hlen : 2 ≤ (groupKeys (q sig.source mrow.signal ltv ltv)).length :=
      two_le_length_of_two_mem hk1 hk2 hkne
    have hlen2 : (groupCounts (q sig.source mrow.signal ltv ltv)).length
        = (groupKeys (q sig.source mrow.signal ltv ltv)).length := by
      unfold groupCounts; rw [List.length_map]
    refine ⟨(groupCounts (q sig.source mrow.signal ltv ltv)).length, by omega, ?_⟩
    simp only [get_coverage, hltv, hhead]
    rw [if_pos (by omega)]

/-- Witness for C2: the zero-row and the two-geo-type cases at concrete
inputs. -/
theorem coverage_failure_modes_witness :
    (([] : List TSRow) = [] →
      get_coverage (fun _ _ _ _ => [])
        ⟨1, "sig", "src", ⟨2020, 1, 1⟩, ⟨2020, 1, 1⟩⟩
        [⟨"src", "sig", 20230105, ⟨2023, 1, 4⟩⟩]
      = Except.error Err.noDataForDate) ∧
    (∀ r1 ∈ ([⟨"county", "src", ⟨2023, 1, 4⟩, "sig"⟩,
        ⟨"state", "src", ⟨2023, 1, 4⟩, "sig"⟩] : List TSRow),
      ∀ r2 ∈ ([⟨"county", "src", ⟨2023, 1, 4⟩, "sig"⟩,
        ⟨"state", "src", ⟨2023, 1, 4⟩, "sig"⟩] : List TSRow),
      r1.geo_type ≠ r2.geo_type →
      ∃ n, 2 ≤ n ∧
        get_coverage (fun _ _ _ _ => [⟨"county", "src", ⟨2023, 1, 4⟩, "sig"⟩,
            ⟨"state", "src", ⟨2023, 1, 4⟩, "sig"⟩])
          ⟨1, "sig", "src", ⟨2020, 1, 1⟩, ⟨2020, 1, 1⟩⟩
          [⟨"src", "sig", 20230105, ⟨2023, 1, 4⟩⟩]
        = Except.error (Err.multipleGroups n)) ∧
    (∀ n, Err.noDataForDate ≠ Err.multipleGroups n) := by
  refine ⟨?_, ?_⟩
  · intro h
    exact (coverage_failure_modes (fun _ _ _ _ => [])
      ⟨1, "sig", "src", ⟨2020, 1, 1⟩, ⟨2020, 1, 1⟩⟩
      [⟨"src", "sig", 20230105, ⟨2023, 1, 4⟩⟩]
      ⟨2023, 1, 4⟩ ⟨"src", "sig", 20230105, ⟨2023, 1, 4⟩⟩
      rfl rfl).1 rfl
  · exact ⟨(coverage_failure_modes (fun _ _ _ _ => [⟨"county", "src", ⟨2023, 1, 4⟩, "sig"⟩,
        ⟨"state", "src", ⟨2023, 1, 4⟩, "sig"⟩])
      ⟨1, "sig", "src", ⟨2020, 1, 1⟩, ⟨2020, 1, 1⟩⟩
      [⟨"src", "sig", 20230105, ⟨2023, 1, 4⟩⟩]
      ⟨2023, 1, 4⟩ ⟨"src", "sig", 20230105, ⟨2023, 1, 4⟩⟩
      rfl rfl).2.1,
      (coverage_failure_modes (fun _ _ _ _ => [⟨"county", "src", ⟨2023, 1, 4⟩, "sig"⟩,
        ⟨"state", "src", ⟨2023, 1, 4⟩, "sig"⟩])
      ⟨1, "sig", "src", ⟨2020, 1, 1⟩, ⟨2020, 1, 1⟩⟩
      [⟨"src", "sig", 20230105, ⟨2023, 1, 4⟩⟩]
      ⟨2023, 1, 4⟩ ⟨"src", "sig", 20230105, ⟨2023, 1, 4⟩⟩
      rfl rfl).2.2⟩

theorem find?_append {α : Type} (p : α → Bool) (l1 l2 : List α) :
    (l1 ++ l2).find? p = match l1.find? p with
      | some a => some a
      | none => l2.find? p := by
  induction l1 with
  | nil => simp
  | cons a t ih =>
    by_cases hp : p a = true
    · rw [List.cons_append, List.find?_cons_of_pos _ hp, List.find?_cons_of_pos _ hp]
    · rw [List.cons_append, List.find?_cons_of_neg _ hp, List.find?_cons_of_neg _ hp, ih]

theorem lastVal_cons (x : DashboardSignalStatus) (xs : List DashboardSignalStatus)
    (k : Nat × Date) :
    lastVal (x :: xs) k = match lastVal xs k with
      | some v => some v
      | none =>
        if statusKey x = k then some (x.latest_issue, x.latest_time_value) else none := by
  unfold lastVal
  rw [List.reverse_cons, find?_append]
  cases h : xs.reverse.find? fun y => decide (statusKey y = k) with
  | some a => simp
  | none =>
    by_cases hk : statusKey x = k
    · simp [List.find?, hk]
    · simp [List.find?, hk]

theorem foldl_upsert_eval (l : List DashboardSignalStatus)
    (t : Nat × Date → Option (Date × Date)) (k : Nat × Date) :
    (l.foldl upsertStatus t) k = match lastVal l k with
      | some v => some v
      | none => t k := by
  induction l generalizing t with
  | nil => simp [lastVal]
  | cons x xs ih =>
    rw [List.foldl_cons, ih (upsertStatus t x), lastVal_cons]
    cases hl : lastVal xs k with
    | some v => rfl
    | none =>
      show upsertStatus t x k = _
      unfold upsertStatus statusKey
      by_cases hk : k = (x.signal_id, x.date)
      · rw [if_pos hk, if_pos hk.symm]
      · rw [if_neg hk, if_neg fun h => hk h.symm]

/-- Claim C6: applying the same `write_status` batch twice leaves the
status table exactly as applying it once, and after one application the
table holds, at each `(signal_id, date)` key, the `(latest_issue,
latest_time_value)` payload of the last batch entry with that key
(conflicting keys overwritten, not duplicated), other keys unchanged. -/
theorem write_status_idempotent (l : List DashboardSignalStatus) (st : DbState) :
    (write_status l (write_status l st)).statusTable
      = (write_status l st).statusTable ∧
    ∀ k, (write_status l st).statusTable k =
      match lastVal l k with
      | some v => some v
      | none => st.statusTable k := by
  constructor
  · funext k
    have e1 : (write_status l (write_status l st)).statusTable k
        = (match lastVal l k with
            | some v => some v
            | none => (write_status l st).statusTable k) :=
      foldl_upsert_eval l _ k
    rw [e1]
    cases hl : lastVal l k with
    | some v =>
      have e2 : (write_status l st).statusTable k
          = (match lastVal l k with
              | some v => some v
              | none => st.statusTable k) :=
        foldl_upsert_eval l _ k
      rw [e2, hl]
    | none => rfl
  · intro k
    exact foldl_upsert_eval l _ k

/-- Claim C7: for two coverage writes sharing the `(signal_id, date,
geo_type)` key but carrying different counts, the table keeps the count of
the first successful write, whether the two writes are separate
`write_coverage` calls or adjacent entries of one batch: the conflicting
insert is a no-op on the existing row. -/
theorem write_coverage_first_write_wins
    (c1 c2 : DashboardSignalCoverage) (st : DbState)
    (hkey : (c2.signal_id, c2.date, c2.geo_type) = (c1.signal_id, c1.date, c1.geo_type))
    (hcnt : c1.count ≠ c2.count)
    (hfresh : st.coverageTable (c1.signal_id, c1.date, c1.geo_type) = none) :
    (write_coverage [c2] (write_coverage [c1] st)).coverageTable
        (c1.signal_id, c1.date, c1.geo_type) = some c1.count ∧
    (write_coverage [c1, c2] st).coverageTable
        (c1.signal_id, c1.date, c1.geo_type) = some c1.count := by
  have h1 : insertCoverage st.coverageTable c1
      = fun k => if k = (c1.signal_id, c1.date, c1.geo_type) then some c1.count
          else st.coverageTable k := by
    unfold insertCoverage; rw [hfresh]
  have h2 : insertCoverage st.coverageTable c1 (c1.signal_id, c1.date, c1.geo_type)
      = some c1.count := by
    rw [h1]; simp
  have hk2 : insertCoverage st.coverageTable c1 (c2.signal_id, c2.date, c2.geo_type)
      = some c1.count := by
    rw [hkey]; exact h2
  have h3 : insertCoverage (insertCoverage st.coverageTable c1) c2
      = insertCoverage st.coverageTable c1 := by
    show (match insertCoverage st.coverageTable c1 (c2.signal_id, c2.date, c2.geo_type) with
        | some _ => insertCoverage st.coverageTable c1
        | none => fun k => if k = (c2.signal_id, c2.date, c2.geo_type) then some c2.count
            else insertCoverage st.coverageTable c1 k)
      = insertCoverage st.coverageTable c1
    rw [hk2]
  constructor
  · show insertCoverage ((write_coverage [c1] st).coverageTable) c2
        (c1.signal_id, c1.date, c1.geo_type) = some c1.count
    show insertCoverage (insertCoverage st.coverageTable c1) c2
        (c1.signal_id, c1.date, c1.geo_type) = some c1.count
    rw [h3]; exact h2
  · show insertCoverage (insertCoverage st.coverageTable c1) c2
        (c1.signal_id, c1.date, c1.geo_type) = some c1.count
    rw [h3]; exact h2

/-- Witness for C7: two counts (3 then 5) at the same concrete key on an
empty store; the table keeps 3. -/
theorem write_coverage_first_write_wins_witness :
    (write_coverage [⟨1, ⟨2023, 1, 4⟩, "county", 5⟩]
        (write_coverage [⟨1, ⟨2023, 1, 4⟩, "county", 3⟩]
          ⟨[], fun _ => none, fun _ => none⟩)).coverageTable
        (1, ⟨2023, 1, 4⟩, "county") = some 3 ∧
    (write_coverage [⟨1, ⟨2023, 1, 4⟩, "county", 3⟩, ⟨1, ⟨2023, 1, 4⟩, "county", 5⟩]
        ⟨[], fun _ => none, fun _ => none⟩).coverageTable
        (1, ⟨2023, 1, 4⟩, "county") = some 3 :=
  write_coverage_first_write_wins ⟨1, ⟨2023, 1, 4⟩, "county", 3⟩
    ⟨1, ⟨2023, 1, 4⟩, "county", 5⟩ ⟨[], fun _ => none, fun _ => none⟩
    rfl (by decide) rfl

/-- Claim C8: whenever the computation phase reaches the write phase, the
run returns `True` and the process exits with code 0 regardless of store
failures, and the two write phases are independent failure domains: a
store error during the status write is caught and the coverage write still
executes, and vice versa. -/
theorem run_reports_success_and_writes_independent
    (q : String → String → Date → Date → List TSRow)
    (metadata : List MetaRow) (today : Date) (st : DbState)
    (sFail cFail : Bool)
    (sl : List DashboardSignalStatus) (cl : List DashboardSignalCoverage)
    (hcomp : computeBatches q metadata today (get_enabled_signals st)
      = Except.ok (sl, cl)) :
    runMain q metadata today sFail cFail st
      = Except.ok (runWrites sFail cFail sl cl st, true) ∧
    exitCode (runMain q metadata today sFail cFail st) = 0 ∧
    runWrites true false sl cl st = write_coverage cl st ∧
    runWrites false true sl cl st = write_status sl st ∧
    runWrites true true sl cl st = st ∧
    runWrites false false sl cl st = write_coverage cl (write_status sl st) := by
  have h1 : runMain q metadata today sFail cFail st
      = Except.ok (runWrites sFail cFail sl cl st, true) := by
    unfold runMain; rw [hcomp]
  exact ⟨h1, by rw [h1]; rfl, rfl, rfl, rfl, rfl⟩

/-- Witness for C8 at a concrete store with no enabled signals, with a
store failure injected into the status write. -/
theorem run_reports_success_and_writes_independent_witness :
    runMain (fun _ _ _ _ => []) [] ⟨2023, 1, 1⟩ true false
        ⟨[], fun _ => none, fun _ => none⟩
      = Except.ok (runWrites true false [] [] ⟨[], fun _ => none, fun _ => none⟩, true) ∧
    exitCode (runMain (fun _ _ _ _ => []) [] ⟨2023, 1, 1⟩ true false
        ⟨[], fun _ => none, fun _ => none⟩) = 0 ∧
    runWrites true false [] [] ⟨[], fun _ => none, fun _ => none⟩
      = write_coverage [] ⟨[], fun _ => none, fun _ => none⟩ ∧
    runWrites false true [] [] ⟨[], fun _ => none, fun _ => none⟩
      = write_status [] ⟨[], fun _ => none, fun _ => none⟩ ∧
    runWrites true true [] [] ⟨[], fun _ => none, fun _ => none⟩
      = ⟨[], fun _ => none, fun _ => none⟩ ∧
    runWrites false false [] [] ⟨[], fun _ => none, fun _ => none⟩
      = write_coverage [] (write_status [] ⟨[], fun _ => none, fun _ => none⟩) :=
  run_reports_success_and_writes_independent _ _ _ _ true false [] [] rfl

theorem computeBatches_halts
    (q : String → String → Date → Date → List TSRow)
    (metadata : List MetaRow) (today : Date)
    (pre : List DashboardSignal) (bad : DashboardSignal) (e : Err)
    (hpre : ∀ s ∈ pre, ∃ v, computeSignal q metadata today s = Except.ok v)
    (hbad : computeSignal q metadata today bad = Except.error e) :
    ∀ rest, computeBatches q metadata today (pre ++ bad :: rest) = Except.error e := by
  induction pre with
  | nil =>
    intro rest
    show (match computeSignal q metadata today bad with
      | Except.error e => Except.error e
      | Except.ok (s, c) =>
        match computeBatches q metadata today rest with
        | Except.error e => Except.error e
        | Except.ok (sl, cl) => Except.ok (s :: sl, c ++ cl)) = Except.error e
    rw [hbad]
  | cons s pre2 ih =>
    intro rest
    obtain ⟨v, hv⟩ := hpre s (List.mem_cons_self s pre2)
    obtain ⟨v1, v2⟩ := v
    show (match computeSignal q metadata today s with
      | Except.error e => Except.error e
      | Except.ok (s, c) =>
        match computeBatches q metadata today (pre2 ++ bad :: rest) with
        | Except.error e => Except.error e
        | Except.ok (sl, cl) => Except.ok (s :: sl, c ++ cl)) = Except.error e
    rw [hv, ih (fun s2 hs2 => hpre s2 (List.mem_cons_of_mem s hs2)) rest]

/-- Claim C9: a computation error (`NotFoundError`, the grouping
invariant failures) for any enabled signal is not caught per-signal: the
run fails with that error before the write phase (in this embedding the
written state exists only in the `ok` branch of `runMain`, so no status or
coverage write occurs), the process exits nonzero, and the outcome is
independent of every signal after the failing one in iteration order. -/
theorem computation_error_halts_run
    (q : String → String → Date → Date → List TSRow)
    (metadata : List MetaRow) (today : Date) (sFail cFail : Bool)
    (pre : List DashboardSignal) (bad : DashboardSignal) (e : Err)
    (hpre : ∀ s ∈ pre, ∃ v, computeSignal q metadata today s = Except.ok v)
    (hbad : computeSignal q metadata today bad = Except.error e) :
    ∀ (st : DbState) (rest : List DashboardSignal),
      get_enabled_signals st = pre ++ bad :: rest →
      runMain q metadata today sFail cFail st = Except.error e ∧
      exitCode (runMain q metadata today sFail cFail st) = 1 := by
  intro st rest hsig
  have h := computeBatches_halts q metadata today pre bad e hpre hbad rest
  have h1 : runMain q metadata today sFail cFail st = Except.error e := by
    unfold runMain
    rw [hsig, h]
  exact ⟨h1, by rw [h1]; rfl⟩

/-- Witness for C9: one enabled signal whose source has no metadata rows;
the run fails with the `NotFoundError` condition and exit code 1. -/
theorem computation_error_halts_run_witness :
    runMain (fun _ _ _ _ => []) [] ⟨2023, 1, 1⟩ false false
        ⟨[⟨1, "sig", "src", true, ⟨2020, 1, 1⟩, ⟨2020, 1, 1⟩⟩],
          fun _ => none, fun _ => none⟩
      = Except.error Err.notFound ∧
    exitCode (runMain (fun _ _ _ _ => []) [] ⟨2023, 1, 1⟩ false false
        ⟨[⟨1, "sig", "src", true, ⟨2020, 1, 1⟩, ⟨2020, 1, 1⟩⟩],
          fun _ => none, fun _ => none⟩) = 1 :=
  computation_error_halts_run (fun _ _ _ _ => []) [] ⟨2023, 1, 1⟩ false false
    [] ⟨1, "sig", "src", ⟨2020, 1, 1⟩, ⟨2020, 1, 1⟩⟩ Err.notFound
    (fun s hs => absurd hs (List.not_mem_nil s)) rfl
    ⟨[⟨1, "sig", "src", true, ⟨2020, 1, 1⟩, ⟨2020, 1, 1⟩⟩], fun _ => none, fun _ => none⟩
    [] rfl

theorem lookupA_setA_ne (acc : List (Nat × Date)) (k0 k : Nat) (d : Date)
    (hne : k ≠ k0) : lookupA (setA acc k0 d) k = lookupA acc k := by
  induction acc with
  | nil => rfl
  | cons p t ih =>
    obtain ⟨k1, d1⟩ := p
    by_cases h : k0 = k1
    · subst h
      simp only [setA, if_pos rfl, lookupA, if_neg hne]
    · simp only [setA, if_neg h, lookupA]
      by_cases hk : k = k1
      · rw [if_pos hk, if_pos hk]
      · rw [if_neg hk, if_neg hk, ih]

theorem lookupA_setA_eq (acc : List (Nat × Date)) (k0 : Nat) (d : Date) :
    lookupA (setA acc k0 d) k0 = match lookupA acc k0 with
      | none => none
      | some _ => some d := by
  induction acc with
  | nil => rfl
  | cons p t ih =>
    obtain ⟨k1, d1⟩ := p
    by_cases h : k0 = k1
    · subst h
      have hs : setA ((k0, d1) :: t) k0 d = (k0, d) :: t := by
        show (if k0 = k0 then (k0, d) :: t else (k0, d1) :: setA t k0 d) = (k0, d) :: t
        rw [if_pos rfl]
      rw [hs]
      show (if k0 = k0 then some d else lookupA t k0)
        = match (if k0 = k0 then some d1 else lookupA t k0) with
          | none => none
          | some _ => some d
      rw [if_pos rfl, if_pos rfl]
    · have hs : setA ((k1, d1) :: t) k0 d = (k1, d1) :: setA t k0 d := by
        show (if k0 = k1 then (k1, d) :: t else (k1, d1) :: setA t k0 d)
          = (k1, d1) :: setA t k0 d
        rw [if_neg h]
      rw [hs]
      show (if k0 = k1 then some d1 else lookupA (setA t k0 d) k0)
        = match (if k0 = k1 then some d1 else lookupA t k0) with
          | none => none
          | some _ => some d
      rw [if_neg h, if_neg h, ih]

theorem lookupA_append_single (acc : List (Nat × Date)) (k0 k : Nat) (d : Date) :
    lookupA (acc ++ [(k0, d)]) k = match lookupA acc k with
      | some v => some v
      | none => if k = k0 then some d else none := by
  induction acc with
  | nil => rfl
  | cons p t ih =>
    obtain ⟨k1, d1⟩ := p
    show (if k = k1 then some d1 else lookupA (t ++ [(k0, d)]) k)
      = match (if k = k1 then some d1 else lookupA t k) with
        | some v => some v
        | none => if k = k0 then some d else none
    by_cases hk : k = k1
    · rw [if_pos hk, if_pos hk]
    · rw [if_neg hk, if_neg hk, ih]

theorem dictUpd_lookup (acc : List (Nat × Date)) (k0 : Nat) (d0 : Date) (k : Nat) :
    lookupA (dictUpd acc k0 d0) k =
      if k = k0 then
        some (match lookupA acc k0 with
          | none => d0
          | some x => Date.maxD x d0)
      else lookupA acc k := by
  cases h : lookupA acc k0 with
  | none =>
    have hd : dictUpd acc k0 d0 = acc ++ [(k0, d0)] := by
      unfold dictUpd; rw [h]
    rw [hd, lookupA_append_single]
    by_cases hk : k = k0
    · subst hk
      rw [h, if_pos rfl]
    · rw [if_neg hk, if_neg hk]
      cases hl : lookupA acc k with
      | none => rfl
      | some v => rfl
  | some x =>
    by_cases hlt : Date.ltb x d0 = true
    · have hd : dictUpd acc k0 d0 = setA acc k0 d0 := by
        unfold dictUpd
        rw [h]
        show (if Date.ltb x d0 = true then setA acc k0 d0 else acc) = setA acc k0 d0
        rw [if_pos hlt]
      rw [hd]
      by_cases hk : k = k0
      · subst hk
        rw [lookupA_setA_eq, h, if_pos rfl]
        show some d0 = some (Date.maxD x d0)
        have hmax : Date.maxD x d0 = d0 := by
          unfold Date.maxD; rw [if_pos hlt]
        rw [hmax]
      · rw [lookupA_setA_ne acc k0 k d0 hk, if_neg hk]
    · have hd : dictUpd acc k0 d0 = acc := by
        unfold dictUpd
        rw [h]
        show (if Date.ltb x d0 = true then setA acc k0 d0 else acc) = acc
        rw [if_neg hlt]
      rw [hd]
      by_cases hk : k = k0
      · subst hk
        rw [h, if_pos rfl]
        show some x = some (Date.maxD x d0)
        have hmax : Date.maxD x d0 = x := by
          unfold Date.maxD; rw [if_neg hlt]
        rw [hmax]
      · rw [if_neg hk]

theorem latestDates_dom1 (pairs : List (Nat × Date)) :
    ∀ (acc : List (Nat × Date)) (k : Nat) (v : Date),
      lookupA acc k = some v →
      ∃ v2, lookupA (pairs.foldl (fun a p => dictUpd a p.1 p.2) acc) k = some v2 ∧
        Date.leb v v2 = true := by
  induction pairs with
  | nil => exact fun acc k v h => ⟨v, h, Date.leb_refl v⟩
  | cons p t ih =>
    intro acc k v h
    rw [List.foldl_cons]
    by_cases hk : k = p.1
    · have h3 : lookupA acc p.1 = some v := by rw [← hk]; exact h
      have h2 : lookupA (dictUpd acc p.1 p.2) k = some (Date.maxD v p.2) := by
        rw [dictUpd_lookup, if_pos hk, h3]
      obtain ⟨v2, hv2, hleb⟩ := ih (dictUpd acc p.1 p.2) k (Date.maxD v p.2) h2
      exact ⟨v2, hv2, Date.leb_trans (Date.leb_maxD_left v p.2) hleb⟩
    · have h2 : lookupA (dictUpd acc p.1 p.2) k = some v := by
        rw [dictUpd_lookup, if_neg hk, h]
      exact ih (dictUpd acc p.1 p.2) k v h2

theorem latestDates_dom2 (pairs : List (Nat × Date)) :
    ∀ (acc : List (Nat × Date)) (k : Nat) (d : Date),
      (k, d) ∈ pairs →
      ∃ v, lookupA (pairs.foldl (fun a p => dictUpd a p.1 p.2) acc) k = some v ∧
        Date.leb d v = true := by
  induction pairs with
  | nil => intro acc k d h; cases h
  | cons p t ih =>
    intro acc k d h
    rw [List.foldl_cons]
    rcases List.mem_cons.mp h with h | h
    · subst h
      have h2 : ∃ w, lookupA (dictUpd acc k d) k = some w ∧ Date.leb d w = true := by
        rw [dictUpd_lookup, if_pos rfl]
        cases hl : lookupA acc k with
        | none => exact ⟨d, rfl, Date.leb_refl d⟩
        | some x => exact ⟨Date.maxD x d, rfl, Date.leb_maxD_right x d⟩
      obtain ⟨w, hw, hleb⟩ := h2
      obtain ⟨v2, hv2, hleb2⟩ := latestDates_dom1 t (dictUpd acc k d) k w hw
      exact ⟨v2, hv2, Date.leb_trans hleb hleb2⟩
    · exact ih (dictUpd acc p.1 p.2) k d h

theorem setA_mem {e : Nat × Date} (acc : List (Nat × Date)) (k : Nat) (d : Date)
    (he : e ∈ setA acc k d) : e ∈ acc ∨ e = (k, d) := by
  induction acc with
  | nil => cases he
  | cons p t ih =>
    obtain ⟨k1, d1⟩ := p
    by_cases h : k = k1
    · rw [setA, if_pos h] at he
      rcases List.mem_cons.mp he with h2 | h2
      · exact Or.inr (by rw [h2, h])
      · exact Or.inl (List.mem_cons_of_mem _ h2)
    · rw [setA, if_neg h] at he
      rcases List.mem_cons.mp he with h2 | h2
      · exact Or.inl (by rw [h2]; exact List.mem_cons_self _ _)
      · rcases ih h2 with h3 | h3
        · exact Or.inl (List.mem_cons_of_mem _ h3)
        · exact Or.inr h3

theorem dictUpd_mem {e : Nat × Date} (acc : List (Nat × Date)) (k : Nat) (d : Date)
    (he : e ∈ dictUpd acc k d) : e ∈ acc ∨ e = (k, d) := by
  cases h : lookupA acc k with
  | none =>
    have hd : dictUpd acc k d = acc ++ [(k, d)] := by
      unfold dictUpd; rw [h]
    rw [hd] at he
    rcases List.mem_append.mp he with h2 | h2
    · exact Or.inl h2
    · exact Or.inr (by simpa using h2)
  | some x =>
    by_cases hlt : Date.ltb x d = true
    · have hd : dictUpd acc k d = setA acc k d := by
        unfold dictUpd
        rw [h]
        show (if Date.ltb x d = true then setA acc k d else acc) = setA acc k d
        rw [if_pos hlt]
      rw [hd] at he
      exact setA_mem acc k d he
    · have hd : dictUpd acc k d = acc := by
        unfold dictUpd
        rw [h]
        show (if Date.ltb x d = true then setA acc k d else acc) = acc
        rw [if_neg hlt]
      rw [hd] at he
      exact Or.inl he

theorem latestDates_sub {e : Nat × Date} (pairs : List (Nat × Date)) :
    ∀ (acc : List (Nat × Date)),
      e ∈ pairs.foldl (fun a p => dictUpd a p.1 p.2) acc → e ∈ acc ∨ e ∈ pairs := by
  induction pairs with
  | nil => exact fun acc h => Or.inl h
  | cons p t ih =>
    intro acc h
    rw [List.foldl_cons] at h
    rcases ih (dictUpd acc p.1 p.2) h with h2 | h2
    · rcases dictUpd_mem acc p.1 p.2 h2 with h3 | h3
      · exact Or.inl h3
      · exact Or.inr (by rw [h3]; exact List.mem_cons_self _ _)
    · exact Or.inr (List.mem_cons_of_mem _ h2)

theorem lookupA_mem (acc : List (Nat × Date)) (k : Nat) (v : Date)
    (h : lookupA acc k = some v) : (k, v) ∈ acc := by
  induction acc with
  | nil => cases h
  | cons p t ih =>
    obtain ⟨k1, d1⟩ := p
    by_cases hk : k = k1
    · rw [lookupA, if_pos hk] at h
      have hv : d1 = v := by simpa using h
      rw [← hv, hk]
      exact List.mem_cons_self _ _
    · rw [lookupA, if_neg hk] at h
      exact List.mem_cons_of_mem _ (ih h)

theorem foldl_map_comm {α β : Type} (g : β → α → β) (l : List α) (s : List β) :
    l.foldl (fun acc a => acc.map fun b => g b a) s = s.map fun b => l.foldl g b := by
  induction l generalizing s with
  | nil => simp
  | cons a t ih =>
    rw [List.foldl_cons, ih, List.map_map]
    rfl

theorem write_status_signals (l : List DashboardSignalStatus) (st : DbState) :
    (write_status l st).signals
      = st.signals.map fun r =>
          (latestDates (l.map fun x => (x.signal_id, x.date))).foldl applyStatusTup r :=
  foldl_map_comm applyStatusTup _ st.signals

theorem write_coverage_signals (l : List DashboardSignalCoverage) (st : DbState) :
    (write_coverage l st).signals
      = st.signals.map fun r =>
          (latestDates (l.map fun x => (x.signal_id, x.date))).foldl applyCoverageTup r :=
  foldl_map_comm applyCoverageTup _ st.signals

theorem applyStatusTup_db_id (r : SignalRow) (p : Nat × Date) :
    (applyStatusTup r p).db_id = r.db_id := by
  unfold applyStatusTup; split <;> rfl

theorem applyCoverageTup_db_id (r : SignalRow) (p : Nat × Date) :
    (applyCoverageTup r p).db_id = r.db_id := by
  unfold applyCoverageTup; split <;> rfl

theorem foldl_applyStatus_db_id (tups : List (Nat × Date)) (r : SignalRow) :
    (tups.foldl applyStatusTup r).db_id = r.db_id := by
  induction tups generalizing r with
  | nil => rfl
  | cons p t ih =>
    rw [List.foldl_cons, ih (applyStatusTup r p), applyStatusTup_db_id]

theorem foldl_applyCoverage_db_id (tups : List (Nat × Date)) (r : SignalRow) :
    (tups.foldl applyCoverageTup r).db_id = r.db_id := by
  induction tups generalizing r with
  | nil => rfl
  | cons p t ih =>
    rw [List.foldl_cons, ih (applyCoverageTup r p), applyCoverageTup_db_id]

theorem foldl_applyStatus_lsu (tups : List (Nat × Date)) (r : SignalRow) :
    (tups.foldl applyStatusTup r).latest_status_update
      = foldMax r.latest_status_update
          ((tups.filter fun p => decide (r.db_id = p.1)).map Prod.snd) := by
  induction tups generalizing r with
  | nil => rfl
  | cons p t ih =>
    rw [List.foldl_cons, List.filter_cons]
    by_cases h : r.db_id = p.1
    · rw [if_pos (by simpa using h)]
      rw [show applyStatusTup r p
          = { r with latest_status_update := Date.maxD r.latest_status_update p.2 } from by
        unfold applyStatusTup; rw [if_pos h]]
      rw [ih]
      rfl
    · rw [if_neg (by simpa using h)]
      rw [show applyStatusTup r p = r from by unfold applyStatusTup; rw [if_neg h]]
      exact ih r

theorem foldl_applyCoverage_lcu (tups : List (Nat × Date)) (r : SignalRow) :
    (tups.foldl applyCoverageTup r).latest_coverage_update
      = foldMax r.latest_coverage_update
          ((tups.filter fun p => decide (r.db_id = p.1)).map Prod.snd) := by
  induction tups generalizing r with
  | nil => rfl
  | cons p t ih =>
    rw [List.foldl_cons, List.filter_cons]
    by_cases h : r.db_id = p.1
    · rw [if_pos (by simpa using h)]
      rw [show applyCoverageTup r p
          = { r with latest_coverage_update := Date.maxD r.latest_coverage_update p.2 } from by
        unfold applyCoverageTup; rw [if_pos h]]
      rw [ih]
      rfl
    · rw [if_neg (by simpa using h)]
      rw [show applyCoverageTup r p = r from by unfold applyCoverageTup; rw [if_neg h]]
      exact ih r

theorem find?_map_pres (f : SignalRow → SignalRow) (sid : Nat)
    (hf : ∀ r, (f r).db_id = r.db_id) (l : List SignalRow) :
    (l.map f).find? (fun x => decide (x.db_id = sid))
      = (l.find? fun x => decide (x.db_id = sid)).map f := by
  induction l with
  | nil => rfl
  | cons a t ih =>
    by_cases h : a.db_id = sid
    · rw [List.map_cons, List.find?_cons_of_pos _ (by simp [hf, h]),
        List.find?_cons_of_pos _ (by simp [h])]
      rfl
    · rw [List.map_cons, List.find?_cons_of_neg _ (by simp [hf, h]),
        List.find?_cons_of_neg _ (by simp [h]), ih]

theorem write_status_watermark_char (l : List DashboardSignalStatus) (st : DbState)
    (sid : Nat) (r : SignalRow)
    (hr : st.signals.find? (fun x => decide (x.db_id = sid)) = some r) :
    ∃ r2, (write_status l st).signals.find? (fun x => decide (x.db_id = sid)) = some r2 ∧
      r2.db_id = r.db_id ∧
      Date.leb r.latest_status_update r2.latest_status_update = true ∧
      (∀ x ∈ l, x.signal_id = sid → Date.leb x.date r2.latest_status_update = true) ∧
      (r2.latest_status_update = r.latest_status_update ∨
        ∃ x ∈ l, x.signal_id = sid ∧ r2.latest_status_update = x.date) := by
  have hrid : r.db_id = sid := by
    have h0 := List.find?_some hr
    simpa using h0
  have hfind : (write_status l st).signals.find? (fun x => decide (x.db_id = sid))
      = some ((latestDates (l.map fun x => (x.signal_id, x.date))).foldl
          applyStatusTup r) := by
    rw [write_status_signals, find?_map_pres _ sid
      (fun r0 => foldl_applyStatus_db_id _ r0) st.signals, hr]
    rfl
  refine ⟨_, hfind, foldl_applyStatus_db_id _ r, ?_, ?_, ?_⟩
  · rw [foldl_applyStatus_lsu]
    exact leb_foldMax_init _ _
  · intro x hx hxsid
    have hp : (sid, x.date) ∈ l.map fun y => (y.signal_id, y.date) := by
      rw [← hxsid]
      exact List.mem_map_of_mem _ hx
    obtain ⟨v, hv, hleb⟩ := latestDates_dom2 _ [] sid x.date hp
    have hmem2 : (sid, v) ∈ latestDates (l.map fun y => (y.signal_id, y.date)) :=
      lookupA_mem _ _ _ hv
    have hvin : v ∈ ((latestDates (l.map fun y => (y.signal_id, y.date))).filter
        fun p => decide (r.db_id = p.1)).map Prod.snd := by
      have hmf : (sid, v) ∈ (latestDates (l.map fun y => (y.signal_id, y.date))).filter
          fun p => decide (r.db_id = p.1) :=
        List.mem_filter.mpr ⟨hmem2, by simp [hrid]⟩
      exact List.mem_map_of_mem Prod.snd hmf
    rw [foldl_applyStatus_lsu]
    exact Date.leb_trans hleb (foldMax_ub _ hvin)
  · rw [foldl_applyStatus_lsu]
    rcases foldMax_mem r.latest_status_update
        (((latestDates (l.map fun y => (y.signal_id, y.date))).filter
          fun p => decide (r.db_id = p.1)).map Prod.snd) with h | h
    · exact Or.inl h
    · right
      obtain ⟨p, hpf, hps⟩ := List.mem_map.mp h
      have hpt : p ∈ latestDates (l.map fun y => (y.signal_id, y.date)) :=
        (List.mem_filter.mp hpf).1
      have hpid : r.db_id = p.1 := by
        have h2 := (List.mem_filter.mp hpf).2
        simpa using h2
      have hpp : p ∈ l.map fun y => (y.signal_id, y.date) := by
        rcases latestDates_sub _ [] hpt with h0 | h0
        · cases h0
        · exact h0
      obtain ⟨x, hx, hxe⟩ := List.mem_map.mp hpp
      refine ⟨x, hx, ?_, ?_⟩
      · have hx1 : x.signal_id = p.1 := by rw [← hxe]
        rw [hx1, ← hpid, hrid]
      · have hxd : x.date = p.2 := by rw [← hxe]
        rw [← hps, hxd]

theorem write_coverage_watermark_char (l : List DashboardSignalCoverage) (st : DbState)
    (sid : Nat) (r : SignalRow)
    (hr : st.signals.find? (fun x => decide (x.db_id = sid)) = some r) :
    ∃ r2, (write_coverage l st).signals.find? (fun x => decide (x.db_id = sid)) = some r2 ∧
      r2.db_id = r.db_id ∧
      Date.leb r.latest_coverage_update r2.latest_coverage_update = true ∧
      (∀ x ∈ l, x.signal_id = sid → Date.leb x.date r2.latest_coverage_update = true) ∧
      (r2.latest_coverage_update = r.latest_coverage_update ∨
        ∃ x ∈ l, x.signal_id = sid ∧ r2.latest_coverage_update = x.date) := by
  have hrid : r.db_id = sid := by
    have h0 := List.find?_some hr
    simpa using h0
  have hfind : (write_coverage l st).signals.find? (fun x => decide (x.db_id = sid))
      = some ((latestDates (l.map fun x => (x.signal_id, x.date))).foldl
          applyCoverageTup r) := by
    rw [write_coverage_signals, find?_map_pres _ sid
      (fun r0 => foldl_applyCoverage_db_id _ r0) st.signals, hr]
    rfl
  refine ⟨_, hfind, foldl_applyCoverage_db_id _ r, ?_, ?_, ?_⟩
  · rw [foldl_applyCoverage_lcu]
    exact leb_foldMax_init _ _
  · intro x hx hxsid
    have hp : (sid, x.date) ∈ l.map fun y => (y.signal_id, y.date) := by
      rw [← hxsid]
      exact List.mem_map_of_mem _ hx
    obtain ⟨v, hv, hleb⟩ := latestDates_dom2 _ [] sid x.date hp
    have hmem2 : (sid, v) ∈ latestDates (l.map fun y => (y.signal_id, y.date)) :=
      lookupA_mem _ _ _ hv
    have hvin : v ∈ ((latestDates (l.map fun y => (y.signal_id, y.date))).filter
        fun p => decide (r.db_id = p.1)).map Prod.snd := by
      have hmf : (sid, v) ∈ (latestDates (l.map fun y => (y.signal_id, y.date))).filter
          fun p => decide (r.db_id = p.1) :=
        List.mem_filter.mpr ⟨hmem2, by simp [hrid]⟩
      exact List.mem_map_of_mem Prod.snd hmf
    rw [foldl_applyCoverage_lcu]
    exact Date.leb_trans hleb (foldMax_ub _ hvin)
  · rw [foldl_applyCoverage_lcu]
    rcases foldMax_mem r.latest_coverage_update
        (((latestDates (l.map fun y => (y.signal_id, y.date))).filter
          fun p => decide (r.db_id = p.1)).map Prod.snd) with h | h
    · exact Or.inl h
    · right
      obtain ⟨p, hpf, hps⟩ := List.mem_map.mp h
      have hpt : p ∈ latestDates (l.map fun y => (y.signal_id, y.date)) :=
        (List.mem_filter.mp hpf).1
      have hpid : r.db_id = p.1 := by
        have h2 := (List.mem_filter.mp hpf).2
        simpa using h2
      have hpp : p ∈ l.map fun y => (y.signal_id, y.date) := by
        rcases latestDates_sub _ [] hpt with h0 | h0
        · cases h0
        · exact h0
      obtain ⟨x, hx, hxe⟩ := List.mem_map.mp hpp
      refine ⟨x, hx, ?_, ?_⟩
      · have hx1 : x.signal_id = p.1 := by rw [← hxe]
        rw [hx1, ← hpid, hrid]
      · have hxd : x.date = p.2 := by rw [← hxe]
        rw [← hps, hxd]

/-- A sequence of `write_status` batches applied in order. -/
def applyStatusBatches (batches : List (List DashboardSignalStatus))
    (st : DbState) : DbState :=
  batches.foldl (fun s b => write_status b s) st

/-- A sequence of `write_coverage` batches applied in order. -/
def applyCoverageBatches (batches : List (List DashboardSignalCoverage))
    (st : DbState) : DbState :=
  batches.foldl (fun s b => write_coverage b s) st

theorem status_watermark_seq (batches : List (List DashboardSignalStatus)) :
    ∀ (st : DbState) (sid : Nat) (r : SignalRow),
      st.signals.find? (fun x => decide (x.db_id = sid)) = some r →
      ∃ r2, (applyStatusBatches batches st).signals.find?
          (fun x => decide (x.db_id = sid)) = some r2 ∧
        r2.db_id = r.db_id ∧
        Date.leb r.latest_status_update r2.latest_status_update = true ∧
        (∀ b ∈ batches, ∀ x ∈ b, x.signal_id = sid →
          Date.leb x.date r2.latest_status_update = true) ∧
        (r2.latest_status_update = r.latest_status_update ∨
          ∃ b ∈ batches, ∃ x ∈ b, x.signal_id = sid ∧
            r2.latest_status_update = x.date) := by
  induction batches with
  | nil =>
    intro st sid r hr
    exact ⟨r, hr, rfl, Date.leb_refl _,
      fun b hb => absurd hb (List.not_mem_nil b), Or.inl rfl⟩
  | cons b bs ih =>
    intro st sid r hr
    obtain ⟨r1, h1find, h1id, h1mono, h1ub, h1att⟩ :=
      write_status_watermark_char b st sid r hr
    obtain ⟨r2, h2find, h2id, h2mono, h2ub, h2att⟩ :=
      ih (write_status b st) sid r1 h1find
    refine ⟨r2, h2find, by rw [h2id, h1id], Date.leb_trans h1mono h2mono, ?_, ?_⟩
    · intro b0 hb0 x hx hxsid
      rcases List.mem_cons.mp hb0 with h | h
      · subst h
        exact Date.leb_trans (h1ub x hx hxsid) h2mono
      · exact h2ub b0 h x hx hxsid
    · rcases h2att with h | h
      · rcases h1att with h3 | h3
        · exact Or.inl (by rw [h, h3])
        · obtain ⟨x, hx, hxsid, hxd⟩ := h3
          exact Or.inr ⟨b, List.mem_cons_self b bs, x, hx, hxsid, by rw [h, hxd]⟩
      · obtain ⟨b0, hb0, x, hx, hxsid, hxd⟩ := h
        exact Or.inr ⟨b0, List.mem_cons_of_mem b hb0, x, hx, hxsid, hxd⟩

theorem coverage_watermark_seq (batches : List (List DashboardSignalCoverage)) :
    ∀ (st : DbState) (sid : Nat) (r : SignalRow),
      st.signals.find? (fun x => decide (x.db_id = sid)) = some r →
      ∃ r2, (applyCoverageBatches batches st).signals.find?
          (fun x => decide (x.db_id = sid)) = some r2 ∧
        r2.db_id = r.db_id ∧
        Date.leb r.latest_coverage_update r2.latest_coverage_update = true ∧
        (∀ b ∈ batches, ∀ x ∈ b, x.signal_id = sid →
          Date.leb x.date r2.latest_coverage_update = true) ∧
        (r2.latest_coverage_update = r.latest_coverage_update ∨
          ∃ b ∈ batches, ∃ x ∈ b, x.signal_id = sid ∧
            r2.latest_coverage_update = x.date) := by
  induction batches with
  | nil =>
    intro st sid r hr
    exact ⟨r, hr, rfl, Date.leb_refl _,
      fun b hb => absurd hb (List.not_mem_nil b), Or.inl rfl⟩
  | cons b bs ih =>
    intro st sid r hr
    obtain ⟨r1, h1find, h1id, h1mono, h1ub, h1att⟩ :=
      write_coverage_watermark_char b st sid r hr
    obtain ⟨r2, h2find, h2id, h2mono, h2ub, h2att⟩ :=
      ih (write_coverage b st) sid r1 h1find
    refine ⟨r2, h2find, by rw [h2id, h1id], Date.leb_trans h1mono h2mono, ?_, ?_⟩
    · intro b0 hb0 x hx hxsid
      rcases List.mem_cons.mp hb0 with h | h
      · subst h
        exact Date.leb_trans (h1ub x hx hxsid) h2mono
      · exact h2ub b0 h x hx hxsid
    · rcases h2att with h | h
      · rcases h1att with h3 | h3
        · exact Or.inl (by rw [h, h3])
        · obtain ⟨x, hx, hxsid, hxd⟩ := h3
          exact Or.inr ⟨b, List.mem_cons_self b bs, x, hx, hxsid, by rw [h, hxd]⟩
      · obtain ⟨b0, hb0, x, hx, hxsid, hxd⟩ := h
        exact Or.inr ⟨b0, List.mem_cons_of_mem b hb0, x, hx, hxsid, hxd⟩

/-- Claim C3: after any sequence of `write_status` batches from any
initial registry state, a signal's `latest_status_update` never decreased
(it is above its initial value, and the statement quantifies over every
intermediate state), is an upper bound of every `date` in any status row
written for that signal, and is attained: it equals the initial value or
one of those dates — i.e. it equals the maximum over the initial value and
all dates written for the signal, computed by the per-batch dictionary
maximum combined with the `GREATEST` update.  The second conjunct is the
analogous property for `write_coverage` and `latest_coverage_update`. -/
theorem watermark_monotone_and_maximal
    (sb : List (List DashboardSignalStatus)) (cb : List (List DashboardSignalCoverage))
    (st st2 : DbState) (sid sid2 : Nat) (r r2 : SignalRow)
    (hr : st.signals.find? (fun x => decide (x.db_id = sid)) = some r)
    (hr2 : st2.signals.find? (fun x => decide (x.db_id = sid2)) = some r2) :
    (∃ rf, (applyStatusBatches sb st).signals.find?
        (fun x => decide (x.db_id = sid)) = some rf ∧
      rf.db_id = r.db_id ∧
      Date.leb r.latest_status_update rf.latest_status_update = true ∧
      (∀ b ∈ sb, ∀ x ∈ b, x.signal_id = sid →
        Date.leb x.date rf.latest_status_update = true) ∧
      (rf.latest_status_update = r.latest_status_update ∨
        ∃ b ∈ sb, ∃ x ∈ b, x.signal_id = sid ∧
          rf.latest_status_update = x.date)) ∧
    (∃ rf, (applyCoverageBatches cb st2).signals.find?
        (fun x => decide (x.db_id = sid2)) = some rf ∧
      rf.db_id = r2.db_id ∧
      Date.leb r2.latest_coverage_update rf.latest_coverage_update = true ∧
      (∀ b ∈ cb, ∀ x ∈ b, x.signal_id = sid2 →
        Date.leb x.date rf.latest_coverage_update = true) ∧
      (rf.latest_coverage_update = r2.latest_coverage_update ∨
        ∃ b ∈ cb, ∃ x ∈ b, x.signal_id = sid2 ∧
          rf.latest_coverage_update = x.date)) :=
  ⟨status_watermark_seq sb st sid r hr, coverage_watermark_seq cb st2 sid2 r2 hr2⟩

/-- Witness for C3 at a one-row registry, one status batch and one
coverage batch. -/
theorem watermark_monotone_and_maximal_witness :
    (∃ rf, (applyStatusBatches [[⟨1, ⟨2023, 1, 2⟩, ⟨2023, 1, 5⟩, ⟨2023, 1, 2⟩⟩]]
        ⟨[⟨1, "n", "s", true, ⟨2020, 1, 1⟩, ⟨2020, 1, 1⟩⟩],
          fun _ => none, fun _ => none⟩).signals.find?
        (fun x => decide (x.db_id = 1)) = some rf ∧
      rf.db_id = (⟨1, "n", "s", true, ⟨2020, 1, 1⟩, ⟨2020, 1, 1⟩⟩ : SignalRow).db_id ∧
      Date.leb (⟨1, "n", "s", true, ⟨2020, 1, 1⟩,
        ⟨2020, 1, 1⟩⟩ : SignalRow).latest_status_update rf.latest_status_update = true ∧
      (∀ b ∈ [[(⟨1, ⟨2023, 1, 2⟩, ⟨2023, 1, 5⟩, ⟨2023, 1, 2⟩⟩ : DashboardSignalStatus)]],
        ∀ x ∈ b, x.signal_id = 1 →
        Date.leb x.date rf.latest_status_update = true) ∧
      (rf.latest_status_update = (⟨1, "n", "s", true, ⟨2020, 1, 1⟩,
          ⟨2020, 1, 1⟩⟩ : SignalRow).latest_status_update ∨
        ∃ b ∈ [[(⟨1, ⟨2023, 1, 2⟩, ⟨2023, 1, 5⟩, ⟨2023, 1, 2⟩⟩ : DashboardSignalStatus)]],
          ∃ x ∈ b, x.signal_id = 1 ∧ rf.latest_status_update = x.date)) ∧
    (∃ rf, (applyCoverageBatches [[⟨1, ⟨2023, 1, 3⟩, "county", 7⟩]]
        ⟨[⟨1, "n", "s", true, ⟨2020, 1, 1⟩, ⟨2020, 1, 1⟩⟩],
          fun _ => none, fun _ => none⟩).signals.find?
        (fun x => decide (x.db_id = 1)) = some rf ∧
      rf.db_id = (⟨1, "n", "s", true, ⟨2020, 1, 1⟩, ⟨2020, 1, 1⟩⟩ : SignalRow).db_id ∧
      Date.leb (⟨1, "n", "s", true, ⟨2020, 1, 1⟩,
        ⟨2020, 1, 1⟩⟩ : SignalRow).latest_coverage_update rf.latest_coverage_update = true ∧
      (∀ b ∈ [[(⟨1, ⟨2023, 1, 3⟩, "county", 7⟩ : DashboardSignalCoverage)]],
        ∀ x ∈ b, x.signal_id = 1 →
        Date.leb x.date rf.latest_coverage_update = true) ∧
      (rf.latest_coverage_update = (⟨1, "n", "s", true, ⟨2020, 1, 1⟩,
          ⟨2020, 1, 1⟩⟩ : SignalRow).latest_coverage_update ∨
        ∃ b ∈ [[(⟨1, ⟨2023, 1, 3⟩, "county", 7⟩ : DashboardSignalCoverage)]],
          ∃ x ∈ b, x.signal_id = 1 ∧ rf.latest_coverage_update = x.date)) :=
  watermark_monotone_and_maximal
    [[⟨1, ⟨2023, 1, 2⟩, ⟨2023, 1, 5⟩, ⟨2023, 1, 2⟩⟩]]
    [[⟨1, ⟨2023, 1, 3⟩, "county", 7⟩]]
    ⟨[⟨1, "n", "s", true, ⟨2020, 1, 1⟩, ⟨2020, 1, 1⟩⟩], fun _ => none, fun _ => none⟩
    ⟨[⟨1, "n", "s", true, ⟨2020, 1, 1⟩, ⟨2020, 1, 1⟩⟩], fun _ => none, fun _ => none⟩
    1 1 ⟨1, "n", "s", true, ⟨2020, 1, 1⟩, ⟨2020, 1, 1⟩⟩
    ⟨1, "n", "s", true, ⟨2020, 1, 1⟩, ⟨2020, 1, 1⟩⟩ rfl rfl
